import Mathlib

/-!
Verification of the flexbook booking engine.

This file embeds the booking lifecycle and concession-ledger engine of the
flexbook repository: the server route handlers of
`backend/src/routes/bookings.js` (create / cancel / complete-class /
undo-complete-class) together with the admin concession update of the users
route, and the browser-local mock implementation of the same rules from
`services/mockApi.ts`.

Time model: instants are integers counting milliseconds from an arbitrary
epoch; calendar dates are integers counting days from the same epoch, so an
ISO date string corresponds to the day number and its midnight instant is
`day * msPerDay`.  A class start time (an `"HH:MM"` string in the source) is
the number of minutes after midnight.  Lexicographic comparison of ISO date
strings in the source coincides with integer comparison of day numbers.
-/

namespace Flexbook

/-- Booking status enum of the `bookings.status` column. -/
inductive BStatus
  | confirmed
  | cancelled
  | completed
  | lateCancelled
deriving DecidableEq, Repr

/-- Publication state enum of the `classes.status` column. -/
inductive PubStatus
  | draft
  | published
  | scheduled
deriving DecidableEq, Repr

/-- Role of an authenticated principal (`users.role`). -/
inductive Role
  | member
  | admin
deriving DecidableEq, Repr

/-- A row of the `users` table, restricted to the fields the booking engine reads. -/
structure User where
  id : Nat
  role : Role
  concessions : Int
deriving DecidableEq, Repr

/-- A row of the `classes` table, restricted to the fields the booking engine reads.
`time` is the class start time in minutes after midnight; `publishDate` and
`endDate` are calendar day numbers. -/
structure GymClass where
  id : Nat
  time : Int
  maxCapacity : Nat
  status : PubStatus
  publishDate : Option Int
  endDate : Option Int
deriving DecidableEq, Repr

/-- A row of the `bookings` table.  `bookingDate` is a calendar day number;
`bookingTime` and `cancellationTime` are instants in milliseconds. -/
structure Booking where
  id : Nat
  userId : Nat
  classId : Nat
  bookingDate : Int
  status : BStatus
  usedConcession : Bool
  bookingTime : Int
  cancellationTime : Option Int
  isLateCancellation : Bool
deriving DecidableEq, Repr

/-- The shared relational store: `users`, `classes` and `bookings` tables. -/
structure Store where
  users : List User
  classes : List GymClass
  bookings : List Booking
deriving DecidableEq, Repr

/-- Typed errors of the booking engine (section 7 of the spec). -/
inductive BookingError
  | invalidBookingDate
  | classNotFound
  | classNotAvailable
  | creditLimitExceeded
  | duplicateBooking
  | classFull
  | bookingNotFound
  | forbidden
  | invalidTransition
  | unauthorized
deriving DecidableEq, Repr

/-- Milliseconds in a day (`1000 * 60 * 60 * 24` in the source). -/
def msPerDay : Int := 86400000

/-- Milliseconds in an hour (`1000 * 60 * 60` in the source). -/
def msPerHour : Int := 3600000

/-- Milliseconds in a minute. -/
def msPerMinute : Int := 60000

/-- Calendar day of an instant: `new Date(t).toISOString().split('T')[0]`
viewed as a day number.  This is the floor of `t / msPerDay`. -/
def calendarDay (t : Int) : Int := Int.fdiv t msPerDay

/-- Day difference computed by `isWithinBookingWindow` in
`backend/src/routes/bookings.js`:
`Math.ceil((booking.getTime() - today.getTime()) / msPerDay)` where `booking`
is midnight of the requested date and `today` is the current instant.  The
ceiling of the division is written as a floor division of the shifted
numerator; `diffDays_eq_ceil` below proves it equal to the rational ceiling. -/
def diffDays (bookingDate now : Int) : Int :=
  Int.fdiv (bookingDate * msPerDay - now + (msPerDay - 1)) msPerDay

/-- Booking-window check of `backend/src/routes/bookings.js`:
`diffDays >= 0 && diffDays <= 14`. -/
def isWithinBookingWindow (now bookingDate : Int) : Bool :=
  decide (0 ≤ diffDays bookingDate now) && decide (diffDays bookingDate now ≤ 14)

/-- Combination `new Date(bookingDate + "T" + classTime + ":00")` of a booking
date and a class start time into an instant. -/
def combineDateTime (bookingDate classTimeMin : Int) : Int :=
  bookingDate * msPerDay + classTimeMin * msPerMinute

/-- Signed hour distance `(classDateTime.getTime() - now.getTime()) / (1000*60*60)`
from `now` to the class start, as an exact rational. -/
def hoursUntilClass (now classDateTime : Int) : ℚ :=
  ((classDateTime - now : Int) : ℚ) / (msPerHour : ℚ)

/-- Late-cancellation check of `backend/src/routes/bookings.js` (and the inline
copy in `mockApi.bookings.cancel`): `hoursUntilClass <= 24 && hoursUntilClass > 0`.
Stated over milliseconds; `late_classification` relates it to `hoursUntilClass`. -/
def isLateCancellation (now classDateTime : Int) : Bool :=
  decide (classDateTime - now ≤ 24 * msPerHour) && decide (0 < classDateTime - now)

/-- Lookup `SELECT ... FROM users WHERE id = $1` (first row). -/
def findUser (s : Store) (uid : Nat) : Option User :=
  s.users.find? (fun u => u.id == uid)

/-- Lookup `SELECT * FROM classes WHERE id = $1` (first row). -/
def findClass (s : Store) (cid : Nat) : Option GymClass :=
  s.classes.find? (fun c => c.id == cid)

/-- Lookup `SELECT ... FROM bookings WHERE id = $1` (first row). -/
def findBooking (s : Store) (bid : Nat) : Option Booking :=
  s.bookings.find? (fun b => b.id == bid)

/-- Predicate for a confirmed booking of the given class on the given date. -/
def isConfirmedFor (cid : Nat) (d : Int) (b : Booking) : Bool :=
  b.classId == cid && b.bookingDate == d && b.status == BStatus.confirmed

/-- Predicate for a completed booking of the given class on the given date. -/
def isCompletedFor (cid : Nat) (d : Int) (b : Booking) : Bool :=
  b.classId == cid && b.bookingDate == d && b.status == BStatus.completed

/-- Capacity query of the create route:
`SELECT COUNT(*) FROM bookings WHERE class_id = $1 AND booking_date = $2 AND status = 'confirmed'`. -/
def confirmedCount (s : Store) (cid : Nat) (d : Int) : Nat :=
  (s.bookings.filter (isConfirmedFor cid d)).length

/-- Duplicate check of the create route: an existing confirmed booking for the
same (user, class, date) triple. -/
def hasConfirmedBooking (s : Store) (uid cid : Nat) (d : Int) : Bool :=
  s.bookings.any (fun b =>
    b.userId == uid && b.classId == cid && b.bookingDate == d &&
      b.status == BStatus.confirmed)

/-- Relative balance update
`UPDATE users SET concessions = concessions + delta WHERE id = $1` (applies to
every row matching the id, as SQL does). -/
def adjustConcessions (s : Store) (uid : Nat) (delta : Int) : Store :=
  { s with users := s.users.map (fun u =>
      if u.id == uid then { u with concessions := u.concessions + delta } else u) }

/-- Replace the first element satisfying `p` by its image under `g`; this is
the `findIndex` / assign-at-index update pattern of `mockApi.ts`. -/
def setFirst {α : Type} (p : α → Bool) (g : α → α) : List α → List α
  | [] => []
  | x :: xs => if p x then g x :: xs else x :: setFirst p g xs

/-- Absolute balance update `updateUserConcessions` of `mockApi.ts`: find the
first user with the id and set its `concessions` field to `newVal`. -/
def updateUserConcessions (s : Store) (uid : Nat) (newVal : Int) : Store :=
  { s with users :=
      setFirst (fun u => u.id == uid) (fun u => { u with concessions := newVal }) s.users }

/-- Availability test inlined in the create route of
`backend/src/routes/bookings.js`:
`classData.status === 'draft' || (classData.status === 'scheduled' && classData.publish_date > today)`.
A scheduled class without a publish date is not rejected (in JavaScript
`null > today` is false). -/
def classNotAvailableCheck (c : GymClass) (today : Int) : Bool :=
  c.status == PubStatus.draft ||
    (c.status == PubStatus.scheduled &&
      (match c.publishDate with
       | some p => decide (today < p)
       | none => false))

/-- Availability helper `isClassAvailableForBooking` of `mockApi.ts`: draft
never, published always, scheduled only with a publish date at or before today. -/
def isClassAvailableForBooking (c : GymClass) (today : Int) : Bool :=
  if c.status == PubStatus.draft then false
  else if c.status == PubStatus.published then true
  else if c.status == PubStatus.scheduled then
    match c.publishDate with
    | some p => decide (p ≤ today)
    | none => false
  else false

/-- The booking row inserted by a successful create:
`INSERT INTO bookings (user_id, class_id, booking_date, status, used_concession)
VALUES ($1,$2,$3,'confirmed',true)`, with the schema defaults
`booking_time = CURRENT_TIMESTAMP`, `cancellation_time = NULL` and
`is_late_cancellation = false`.  `mockApi.bookings.create` builds the same
record with these fields set explicitly. -/
def newBooking (now : Int) (userId classId : Nat) (bookingDate : Int) (newId : Nat) : Booking :=
  { id := newId, userId := userId, classId := classId, bookingDate := bookingDate,
    status := BStatus.confirmed, usedConcession := true, bookingTime := now,
    cancellationTime := none, isLateCancellation := false }

/-- Create-booking route `router.post('/')` of `backend/src/routes/bookings.js`,
checks in source order: booking window, class existence, availability, credit
floor, duplicate, capacity; on success insert the booking and debit one
concession.  The fresh surrogate id is passed as `newId`. -/
def createBooking (s : Store) (now : Int) (userId classId : Nat) (bookingDate : Int)
    (newId : Nat) : Except BookingError (Store × Booking) :=
  if isWithinBookingWindow now bookingDate = false then
    Except.error BookingError.invalidBookingDate
  else
    match findClass s classId with
    | none => Except.error BookingError.classNotFound
    | some c =>
      if classNotAvailableCheck c (calendarDay now) then
        Except.error BookingError.classNotAvailable
      else
        match findUser s userId with
        | none => Except.error BookingError.unauthorized
        | some u =>
          if u.concessions ≤ -5 then Except.error BookingError.creditLimitExceeded
          else if hasConfirmedBooking s userId classId bookingDate then
            Except.error BookingError.duplicateBooking
          else if c.maxCapacity ≤ confirmedCount s classId bookingDate then
            Except.error BookingError.classFull
          else
            let b := newBooking now userId classId bookingDate newId
            Except.ok
              (adjustConcessions { s with bookings := s.bookings ++ [b] } userId (-1), b)

/-- Status update of the cancel route:
`UPDATE bookings SET status = $1, cancellation_time = CURRENT_TIMESTAMP,
is_late_cancellation = $2 WHERE id = $3`. -/
def cancelUpdate (now : Int) (bid : Nat) (late : Bool) (s : Store) : Store :=
  { s with bookings := s.bookings.map (fun b0 =>
      if b0.id == bid then
        { b0 with
          status := if late then BStatus.lateCancelled else BStatus.cancelled,
          isLateCancellation := late, cancellationTime := some now }
      else b0) }

/-- Cancel route `router.patch('/:id/cancel')` of `backend/src/routes/bookings.js`.
The booking is loaded joined with its class (a missing class row makes the
join empty, hence `bookingNotFound`); then the ownership check, the
confirmed-status check, the late classification, the status update and the
conditional refund.  Returns the updated store, the late flag and the
refunded flag. -/
def cancelBooking (s : Store) (now : Int) (requesterId : Nat) (requesterRole : Role)
    (bookingId : Nat) : Except BookingError (Store × Bool × Bool) :=
  match findBooking s bookingId with
  | none => Except.error BookingError.bookingNotFound
  | some b =>
    match findClass s b.classId with
    | none => Except.error BookingError.bookingNotFound
    | some c =>
      if requesterRole != Role.admin && b.userId != requesterId then
        Except.error BookingError.forbidden
      else if b.status != BStatus.confirmed then
        Except.error BookingError.invalidTransition
      else
        let late := isLateCancellation now (combineDateTime b.bookingDate c.time)
        let s1 := cancelUpdate now bookingId late s
        let refunded := !late && b.usedConcession
        if refunded then Except.ok (adjustConcessions s1 b.userId 1, late, refunded)
        else Except.ok (s1, late, refunded)

/-- Complete-class route `router.patch('/complete-class')`:
`UPDATE bookings SET status = 'completed' WHERE class_id = $1 AND
booking_date = $2 AND status = 'confirmed' RETURNING *`; the second component
is the number of rows updated. -/
def completeClass (s : Store) (classId : Nat) (bookingDate : Int) : Store × Nat :=
  ({ s with bookings := s.bookings.map (fun b =>
      if isConfirmedFor classId bookingDate b then { b with status := BStatus.completed }
      else b) },
   (s.bookings.filter (isConfirmedFor classId bookingDate)).length)

/-- Undo-complete-class route `router.patch('/undo-complete-class')`:
`UPDATE bookings SET status = 'confirmed' WHERE class_id = $1 AND
booking_date = $2 AND status = 'completed' RETURNING *`. -/
def undoCompleteClass (s : Store) (classId : Nat) (bookingDate : Int) : Store × Nat :=
  ({ s with bookings := s.bookings.map (fun b =>
      if isCompletedFor classId bookingDate b then { b with status := BStatus.confirmed }
      else b) },
   (s.bookings.filter (isCompletedFor classId bookingDate)).length)

/-- Admin concession update `router.patch('/:id/concessions')` of the users
route: read the current balance, add the signed delta, and write the sum back
unconditionally (no floor check).  Returns the updated store and new balance. -/
def updateConcessionsRoute (s : Store) (uid : Nat) (delta : Int) :
    Except BookingError (Store × Int) :=
  match findUser s uid with
  | none => Except.error BookingError.unauthorized
  | some u =>
    let newVal := u.concessions + delta
    Except.ok ({ s with users := s.users.map (fun u0 =>
        if u0.id == uid then { u0 with concessions := newVal } else u0) }, newVal)

/-- Mock create `mockApi.bookings.create`: requires the token user; checks, in
source order, the credit floor, class existence and availability and the
duplicate; it performs no booking-window check and no capacity check.  A
missing class produces the same availability error as an unavailable one. -/
def mockCreate (s : Store) (now : Int) (userId classId : Nat) (bookingDate : Int)
    (newId : Nat) : Except BookingError (Store × Booking) :=
  match findUser s userId with
  | none => Except.error BookingError.unauthorized
  | some u =>
    if u.concessions ≤ -5 then Except.error BookingError.creditLimitExceeded
    else
      match findClass s classId with
      | none => Except.error BookingError.classNotAvailable
      | some c =>
        if isClassAvailableForBooking c (calendarDay now) = false then
          Except.error BookingError.classNotAvailable
        else if hasConfirmedBooking s userId classId bookingDate then
          Except.error BookingError.duplicateBooking
        else
          let b := newBooking now userId classId bookingDate newId
          Except.ok
            (updateUserConcessions { s with bookings := s.bookings ++ [b] } userId
              (u.concessions - 1), b)

/-- Mock cancel `mockApi.bookings.cancel`: finds the requester's own booking by
`b.id === id && b.user_id === user.id` (no admin override, no confirmed-status
check), classifies lateness with the same formula as the server, updates the
found array entry in place, and refunds by writing `user.concessions + 1` when
the cancellation is early and the original `used_concession` flag was true. -/
def mockCancel (s : Store) (now : Int) (requesterId : Nat) (bookingId : Nat) :
    Except BookingError (Store × Bool × Bool) :=
  match findUser s requesterId with
  | none => Except.error BookingError.unauthorized
  | some u =>
    match s.bookings.find? (fun b => b.id == bookingId && b.userId == requesterId) with
    | none => Except.error BookingError.bookingNotFound
    | some b =>
      match findClass s b.classId with
      | none => Except.error BookingError.classNotFound
      | some c =>
        let late := isLateCancellation now (combineDateTime b.bookingDate c.time)
        let upd := setFirst (fun b0 => b0.id == bookingId && b0.userId == requesterId)
          (fun b0 =>
            { b0 with
              status := if late then BStatus.lateCancelled else BStatus.cancelled,
              isLateCancellation := late, cancellationTime := some now })
          s.bookings
        let s1 := { s with bookings := upd }
        let refunded := !late && b.usedConcession
        if refunded then
          Except.ok (updateUserConcessions s1 requesterId (u.concessions + 1), late, refunded)
        else Except.ok (s1, late, refunded)

/-- Mock complete-class `mockApi.bookings.completeClass`: applies the same
status transition as the server route, but the returned count is the number of
bookings for the (class, date) pair in any status, not the number updated. -/
def mockCompleteClass (s : Store) (classId : Nat) (bookingDate : Int) : Store × Nat :=
  let updated := s.bookings.map (fun b =>
    if isConfirmedFor classId bookingDate b then { b with status := BStatus.completed }
    else b)
  ({ s with bookings := updated },
   (updated.filter (fun b => b.classId == classId && b.bookingDate == bookingDate)).length)

/-- Mock undo-complete-class `mockApi.bookings.undoCompleteClass`; the returned
count is again the number of bookings for the pair in any status. -/
def mockUndoCompleteClass (s : Store) (classId : Nat) (bookingDate : Int) : Store × Nat :=
  let updated := s.bookings.map (fun b =>
    if isCompletedFor classId bookingDate b then { b with status := BStatus.confirmed }
    else b)
  ({ s with bookings := updated },
   (updated.filter (fun b => b.classId == classId && b.bookingDate == bookingDate)).length)

/-- Mock admin concession update `mockApi.users.updateConcessions`: add the
signed delta to the stored balance with no floor check. -/
def mockUpdateConcessions (s : Store) (uid : Nat) (delta : Int) :
    Except BookingError (Store × Int) :=
  match findUser s uid with
  | none => Except.error BookingError.unauthorized
  | some u =>
    let newVal := u.concessions + delta
    Except.ok (updateUserConcessions s uid newVal, newVal)

/-- One booking-lifecycle request with its parameters. -/
inductive Op
  | create (now : Int) (userId classId : Nat) (bookingDate : Int) (newId : Nat)
  | cancel (now : Int) (requesterId : Nat) (role : Role) (bookingId : Nat)
  | complete (classId : Nat) (bookingDate : Int)
  | undoComplete (classId : Nat) (bookingDate : Int)

/-- Apply one server operation to the store; a rejected request leaves the
store unchanged (all business checks happen before any write). -/
def applyOp (s : Store) : Op → Store
  | Op.create now uid cid d nid =>
    match createBooking s now uid cid d nid with
    | Except.ok (s', _) => s'
    | Except.error _ => s
  | Op.cancel now rid role bid =>
    match cancelBooking s now rid role bid with
    | Except.ok (s', _, _) => s'
    | Except.error _ => s
  | Op.complete cid d => (completeClass s cid d).1
  | Op.undoComplete cid d => (undoCompleteClass s cid d).1

/-- Run a sequence of booking-lifecycle operations. -/
def runOps (s : Store) (ops : List Op) : Store :=
  ops.foldl applyOp s

/-! Arithmetic facts about the time helpers. -/

theorem diffDays_eq (bookingDate now : Int) :
    diffDays bookingDate now = bookingDate - calendarDay now := by
  unfold diffDays calendarDay msPerDay
  rw [Int.fdiv_eq_ediv _ (by norm_num), Int.fdiv_eq_ediv _ (by norm_num)]
  omega

/-- The shifted floor division in `diffDays` is the rational ceiling computed
by `Math.ceil` in the source. -/
theorem diffDays_eq_ceil (bookingDate now : Int) :
    diffDays bookingDate now =
      ⌈((bookingDate * msPerDay - now : Int) : ℚ) / ((msPerDay : Int) : ℚ)⌉ := by
  have hP : (0 : ℚ) < ((msPerDay : Int) : ℚ) := by norm_num [msPerDay]
  have h1 : bookingDate * msPerDay - now ≤ diffDays bookingDate now * msPerDay := by
    unfold diffDays msPerDay
    rw [Int.fdiv_eq_ediv _ (by norm_num)]
    omega
  have h2 : (diffDays bookingDate now - 1) * msPerDay < bookingDate * msPerDay - now := by
    unfold diffDays msPerDay
    rw [Int.fdiv_eq_ediv _ (by norm_num)]
    omega
  symm
  rw [Int.ceil_eq_iff]
  constructor
  · rw [lt_div_iff₀ hP]
    have : ((diffDays bookingDate now - 1 : Int) : ℚ) * ((msPerDay : Int) : ℚ) <
        ((bookingDate * msPerDay - now : Int) : ℚ) := by exact_mod_cast h2
    push_cast at this ⊢
    linarith
  · rw [div_le_iff₀ hP]
    exact_mod_cast h1

/-! List lemmas about keyed updates. -/

theorem find_key_map {α : Type} (key : α → Nat) (k : Nat) (f : α → α)
    (hf : ∀ x, key (f x) = key x) (l : List α) :
    (l.map f).find? (fun x => key x == k) = (l.find? (fun x => key x == k)).map f := by
  induction l with
  | nil => rfl
  | cons x xs ih =>
    simp only [List.map_cons, List.find?_cons, hf x]
    cases h : (key x == k) with
    | true => rfl
    | false => exact ih

theorem map_ite_of_countP_zero {α : Type} (p : α → Bool) (g : α → α) (l : List α)
    (h : l.countP p = 0) : l.map (fun x => if p x then g x else x) = l := by
  induction l with
  | nil => rfl
  | cons x xs ih =>
    rw [List.countP_cons] at h
    have hx : p x = false := by
      cases hx : p x
      · rfl
      · simp [hx] at h
    have h0 : xs.countP p = 0 := by omega
    simp [hx, ih h0]

theorem map_ite_eq_setFirst {α : Type} (p : α → Bool) (g : α → α) (l : List α)
    (h : l.countP p ≤ 1) : l.map (fun x => if p x then g x else x) = setFirst p g l := by
  induction l with
  | nil => rfl
  | cons x xs ih =>
    rw [List.countP_cons] at h
    cases hx : p x with
    | true =>
      have h0 : xs.countP p = 0 := by
        have h3 : (if p x = true then 1 else 0) = 1 := if_pos hx
        omega
      simp [setFirst, hx, map_ite_of_countP_zero p g xs h0]
    | false =>
      have h1 : xs.countP p ≤ 1 := by omega
      simp [setFirst, hx, ih h1]

theorem countP_key_le_one {α : Type} (key : α → Nat) (k : Nat) (l : List α)
    (h : (l.map key).Nodup) : l.countP (fun x => key x == k) ≤ 1 := by
  induction l with
  | nil => simp
  | cons x xs ih =>
    rw [List.countP_cons]
    simp only [List.map_cons, List.nodup_cons] at h
    cases hx : (key x == k) with
    | true =>
      have h0 : xs.countP (fun y => key y == k) = 0 := by
        rw [List.countP_eq_zero]
        intro y hy hyk
        apply h.1
        have hky : key y = k := by simpa using hyk
        have hkx : key x = k := by simpa using hx
        rw [hkx, ← hky]
        exact List.mem_map_of_mem key hy
      simp [h0]
    | false =>
      have := ih h.2
      simp only [if_neg Bool.false_ne_true]
      omega

theorem setFirst_congr {α : Type} (p : α → Bool) (g g' : α → α) (l : List α) (a : α)
    (hfind : l.find? p = some a) (hgg : g a = g' a) : setFirst p g l = setFirst p g' l := by
  induction l with
  | nil => simp [List.find?] at hfind
  | cons x xs ih =>
    rw [List.find?_cons] at hfind
    cases hx : p x with
    | true =>
      rw [hx] at hfind
      have hxa : x = a := by simpa using hfind
      subst hxa
      simp [setFirst, hx, hgg]
    | false =>
      rw [hx] at hfind
      simp only [setFirst, hx, if_neg Bool.false_ne_true]
      rw [ih hfind]

/-! Inversion lemmas for the server operations. -/

theorem createBooking_ok_inv {s : Store} {now : Int} {userId classId : Nat}
    {bookingDate : Int} {newId : Nat} {s' : Store} {b : Booking}
    (h : createBooking s now userId classId bookingDate newId = Except.ok (s', b)) :
    isWithinBookingWindow now bookingDate = true ∧
    ∃ c u, findClass s classId = some c ∧
      classNotAvailableCheck c (calendarDay now) = false ∧
      findUser s userId = some u ∧
      -5 < u.concessions ∧
      hasConfirmedBooking s userId classId bookingDate = false ∧
      confirmedCount s classId bookingDate < c.maxCapacity ∧
      b = newBooking now userId classId bookingDate newId ∧
      s' = adjustConcessions { s with bookings := s.bookings ++ [b] } userId (-1) := by
  unfold createBooking at h
  split at h
  · exact absurd h (by simp)
  · rename_i hw
    split at h
    · exact absurd h (by simp)
    · rename_i c hc
      split at h
      · exact absurd h (by simp)
      · rename_i hav
        split at h
        · exact absurd h (by simp)
        · rename_i u hu
          split at h
          · exact absurd h (by simp)
          · rename_i hcred
            split at h
            · exact absurd h (by simp)
            · rename_i hdup
              split at h
              · exact absurd h (by simp)
              · rename_i hcap
                simp only [Except.ok.injEq, Prod.mk.injEq] at h
                refine ⟨by simpa using hw, c, u, hc, by simpa using hav, hu,
                  by omega, by simpa using hdup, by omega, h.2.symm, ?_⟩
                rw [← h.1, ← h.2]

theorem cancelBooking_ok_inv {s : Store} {now : Int} {rid : Nat} {role : Role}
    {bid : Nat} {s' : Store} {late ref : Bool}
    (h : cancelBooking s now rid role bid = Except.ok (s', late, ref)) :
    ∃ b c, findBooking s bid = some b ∧ findClass s b.classId = some c ∧
      (role = Role.admin ∨ b.userId = rid) ∧
      b.status = BStatus.confirmed ∧
      late = isLateCancellation now (combineDateTime b.bookingDate c.time) ∧
      ref = (!late && b.usedConcession) ∧
      s' = (if ref = true then adjustConcessions (cancelUpdate now bid late s) b.userId 1
            else cancelUpdate now bid late s) := by
  simp only [cancelBooking] at h
  split at h
  · exact absurd h (by simp)
  · rename_i b hb
    split at h
    · exact absurd h (by simp)
    · rename_i c hc
      split at h
      · exact absurd h (by simp)
      · rename_i hown
        split at h
        · exact absurd h (by simp)
        · rename_i hst
          refine ⟨b, c, hb, hc, ?_, ?_, ?_⟩
          · by_cases hr : role = Role.admin
            · exact Or.inl hr
            · right
              by_cases hu : b.userId = rid
              · exact hu
              · exact absurd (by simp [bne_iff_ne, hr, hu]) hown
          · by_contra hne
            exact hst (by simp [bne_iff_ne, hne])
          · split at h
            · rename_i hr
              simp only [Except.ok.injEq, Prod.mk.injEq] at h
              obtain ⟨hs, hl, hrf⟩ := h
              subst hl
              subst hrf
              exact ⟨rfl, rfl, by rw [if_pos hr, ← hs]⟩
            · rename_i hr
              simp only [Except.ok.injEq, Prod.mk.injEq] at h
              obtain ⟨hs, hl, hrf⟩ := h
              subst hl
              subst hrf
              refine ⟨rfl, rfl, ?_⟩
              rw [if_neg hr, ← hs]

/-! Theorems for the frozen claims, with their supporting lemmas. -/

theorem map_key_of_preserving {α : Type} (key : α → Nat) (f : α → α)
    (hf : ∀ x, key (f x) = key x) (l : List α) : (l.map f).map key = l.map key := by
  rw [List.map_map]
  exact List.map_congr_left (fun x _ => hf x)

theorem adjustConcessions_users_ids (s : Store) (uid : Nat) (d : Int) :
    (adjustConcessions s uid d).users.map User.id = s.users.map User.id := by
  apply map_key_of_preserving
  intro x
  by_cases hx : (x.id == uid) = true <;> simp [hx]

theorem adjustConcessions_bookings (s : Store) (uid : Nat) (d : Int) :
    (adjustConcessions s uid d).bookings = s.bookings := rfl

theorem adjustConcessions_classes (s : Store) (uid : Nat) (d : Int) :
    (adjustConcessions s uid d).classes = s.classes := rfl

theorem cancelUpdate_users (now : Int) (bid : Nat) (late : Bool) (s : Store) :
    (cancelUpdate now bid late s).users = s.users := rfl

theorem cancelUpdate_classes (now : Int) (bid : Nat) (late : Bool) (s : Store) :
    (cancelUpdate now bid late s).classes = s.classes := rfl

theorem findUser_adjustConcessions (s : Store) (uid k : Nat) (d : Int) :
    findUser (adjustConcessions s uid d) k =
      (findUser s k).map (fun u =>
        if u.id == uid then { u with concessions := u.concessions + d } else u) := by
  exact find_key_map User.id k
    (fun u => if u.id == uid then { u with concessions := u.concessions + d } else u)
    (fun x => by by_cases hx : (x.id == uid) = true <;> simp [hx]) s.users

theorem findBooking_cancelUpdate (now : Int) (bid : Nat) (late : Bool) (s : Store) (k : Nat) :
    findBooking (cancelUpdate now bid late s) k =
      (findBooking s k).map (fun b0 =>
        if b0.id == bid then
          { b0 with
            status := if late then BStatus.lateCancelled else BStatus.cancelled,
            isLateCancellation := late, cancellationTime := some now }
        else b0) := by
  exact find_key_map Booking.id k
    (fun b0 =>
      if b0.id == bid then
        { b0 with
          status := if late then BStatus.lateCancelled else BStatus.cancelled,
          isLateCancellation := late, cancellationTime := some now }
      else b0)
    (fun x => by by_cases hx : (x.id == bid) = true <;> simp [hx]) s.bookings

theorem applyOp_users_ids (s : Store) (op : Op) :
    ((applyOp s op).users.map User.id) = s.users.map User.id := by
  cases op with
  | create now uid cid d nid =>
    dsimp only [applyOp]
    cases hcr : createBooking s now uid cid d nid with
    | error e => rfl
    | ok r =>
      obtain ⟨s', b⟩ := r
      obtain ⟨hw, c, u, hc, hav, hu, hgt, hdup, hcap, hb, hs'⟩ := createBooking_ok_inv hcr
      subst hs'
      exact adjustConcessions_users_ids _ uid (-1)
  | cancel now rid role bid =>
    dsimp only [applyOp]
    cases hcn : cancelBooking s now rid role bid with
    | error e => rfl
    | ok r =>
      obtain ⟨s', late, ref⟩ := r
      obtain ⟨b, c, hb, hc, hown, hst, hl, hr, hs'⟩ := cancelBooking_ok_inv hcn
      subst hs'
      cases ref with
      | true =>
        show (adjustConcessions (cancelUpdate now bid late s) b.userId 1).users.map User.id =
          s.users.map User.id
        rw [adjustConcessions_users_ids, cancelUpdate_users]
      | false =>
        show (cancelUpdate now bid late s).users.map User.id = s.users.map User.id
        rw [cancelUpdate_users]
  | complete cid d => rfl
  | undoComplete cid d => rfl

theorem applyOp_creditFloor (s : Store) (op : Op)
    (hnd : (s.users.map User.id).Nodup)
    (hbal : ∀ u ∈ s.users, -5 ≤ u.concessions) :
    ∀ u ∈ (applyOp s op).users, -5 ≤ u.concessions := by
  cases op with
  | create now uid cid d nid =>
    dsimp only [applyOp]
    cases hcr : createBooking s now uid cid d nid with
    | error e => exact hbal
    | ok r =>
      obtain ⟨s', b⟩ := r
      obtain ⟨hw, c, u, hc, hav, hu, hgt, hdup, hcap, hb, hs'⟩ := createBooking_ok_inv hcr
      subst hs'
      intro u' hu'
      simp only [adjustConcessions] at hu'
      rcases List.mem_map.mp hu' with ⟨u0, hu0, rfl⟩
      have hufind : s.users.find? (fun u1 => u1.id == uid) = some u := hu
      by_cases h0 : (u0.id == uid) = true
      · have humem : u ∈ s.users := List.mem_of_find?_eq_some hufind
        have hukey := List.find?_some hufind
        have hu0u : u0 = u := by
          apply List.inj_on_of_nodup_map hnd hu0 humem
          rw [eq_of_beq h0, eq_of_beq hukey]
        subst hu0u
        rw [if_pos h0]
        dsimp only
        omega
      · rw [if_neg h0]
        exact hbal u0 hu0
  | cancel now rid role bid =>
    dsimp only [applyOp]
    cases hcn : cancelBooking s now rid role bid with
    | error e => exact hbal
    | ok r =>
      obtain ⟨s', late, ref⟩ := r
      obtain ⟨b, c, hb, hc, hown, hst, hl, hr, hs'⟩ := cancelBooking_ok_inv hcn
      subst hs'
      cases ref with
      | true =>
        intro u' hu'
        have hu'2 : u' ∈ (adjustConcessions (cancelUpdate now bid late s) b.userId 1).users := hu'
        simp only [adjustConcessions, cancelUpdate] at hu'2
        rcases List.mem_map.mp hu'2 with ⟨u0, hu0, rfl⟩
        have hb0 := hbal u0 hu0
        by_cases h0 : (u0.id == b.userId) = true <;> simp [h0] <;> omega
      | false =>
        exact hbal
  | complete cid d => exact hbal
  | undoComplete cid d => exact hbal

theorem runOps_creditFloor (s : Store) (ops : List Op)
    (hnd : (s.users.map User.id).Nodup)
    (hbal : ∀ u ∈ s.users, -5 ≤ u.concessions) :
    ∀ u ∈ (runOps s ops).users, -5 ≤ u.concessions := by
  induction ops generalizing s with
  | nil => exact hbal
  | cons op ops ih =>
    rw [runOps, List.foldl_cons]
    exact ih (applyOp s op)
      (by rw [applyOp_users_ids]; exact hnd)
      (applyOp_creditFloor s op hnd hbal)

/-- Claim C1: starting from any store with pairwise distinct user ids (the
primary key of the `users` table) in which every balance is at least −5, any
sequence of create / cancel / complete / undo-complete requests leaves every
balance at least −5; moreover a create for a user whose balance read before
the debit is at most −5 cannot succeed (it is rejected, with
`creditLimitExceeded` once the earlier checks pass), and a successful create
debits the user's balance by exactly one, so a user at −4 lands at −5. -/
theorem creditFloor_invariant (s : Store) (ops : List Op)
    (hnd : (s.users.map User.id).Nodup)
    (hbal : ∀ u ∈ s.users, -5 ≤ u.concessions) :
    (∀ u ∈ (runOps s ops).users, -5 ≤ u.concessions) ∧
    (∀ now uid cid d nid u, findUser s uid = some u → u.concessions ≤ -5 →
      ∀ r, createBooking s now uid cid d nid ≠ Except.ok r) ∧
    (∀ now uid cid d nid u, findUser s uid = some u → u.concessions ≤ -5 →
      isWithinBookingWindow now d = true →
      (∀ c, findClass s cid = some c → classNotAvailableCheck c (calendarDay now) = false) →
      (findClass s cid).isSome →
      createBooking s now uid cid d nid = Except.error BookingError.creditLimitExceeded) ∧
    (∀ now uid cid d nid s' b u, createBooking s now uid cid d nid = Except.ok (s', b) →
      findUser s uid = some u →
      findUser s' uid = some { u with concessions := u.concessions - 1 }) := by
  refine ⟨runOps_creditFloor s ops hnd hbal, ?_, ?_, ?_⟩
  · intro now uid cid d nid u hu hle r hok
    obtain ⟨s', b⟩ := r
    obtain ⟨hw, c, u', hc, hav, hu', hgt, _⟩ := createBooking_ok_inv hok
    rw [hu] at hu'
    cases hu'
    omega
  · intro now uid cid d nid u hu hle hw hav hcs
    cases hc : findClass s cid with
    | none => rw [hc] at hcs; cases hcs
    | some c =>
      have havc := hav c hc
      simp [createBooking, hw, hc, havc, hu, hle]
  · intro now uid cid d nid s' b u hok hu
    obtain ⟨hw, c, u', hc, hav, hu', hgt, hdup, hcap, hb, hs'⟩ := createBooking_ok_inv hok
    rw [hu] at hu'
    cases hu'
    subst hs'
    have hufind : s.users.find? (fun u1 => u1.id == uid) = some u := hu
    have hkey := List.find?_some hufind
    rw [findUser_adjustConcessions]
    have hfu : findUser { s with bookings := s.bookings ++ [b] } uid = some u := hu
    rw [hfu]
    dsimp only [Option.map]
    rw [if_pos hkey]
    have harith : u.concessions + (-1) = u.concessions - 1 := by ring
    rw [harith]

/-- Claim C3: for every request instant `now` and requested booking date, the
window check accepts iff the calendar-day difference (which is what the
ceiling of the fractional-day delta computes) lies between 0 and 14 inclusive,
regardless of the time of day within `now`; a date outside the window makes
create fail with `invalidBookingDate`, and a successful create implies the
date was inside the window. -/
theorem bookingWindow_calendar (now d : Int) :
    (isWithinBookingWindow now d = true ↔
      (0 ≤ d - calendarDay now ∧ d - calendarDay now ≤ 14)) ∧
    (∀ s uid cid nid, isWithinBookingWindow now d = false →
      createBooking s now uid cid d nid = Except.error BookingError.invalidBookingDate) ∧
    (∀ s uid cid nid s' b, createBooking s now uid cid d nid = Except.ok (s', b) →
      isWithinBookingWindow now d = true) := by
  have hwin : isWithinBookingWindow now d = true ↔
      (0 ≤ d - calendarDay now ∧ d - calendarDay now ≤ 14) := by
    simp [isWithinBookingWindow, diffDays_eq]
  refine ⟨hwin, ?_, ?_⟩
  · intro s uid cid nid h
    simp [createBooking, h]
  · intro s uid cid nid s' b h
    cases hw : isWithinBookingWindow now d with
    | false => simp [createBooking, hw] at h
    | true => rfl

/-- Claim C3 witness: booking 14 days ahead from midnight of day 0 is accepted. -/
theorem bookingWindow_calendar_witness : isWithinBookingWindow 0 14 = true :=
  (bookingWindow_calendar 0 14).1.mpr (by decide)

/-- Claim C4: the cancellation is classified late iff the signed hour distance
to the combined class date-time is strictly positive and at most 24; in every
other case, including a cancellation at or after class start
(`hoursUntilClass ≤ 0`), it is classified early. -/
theorem late_classification (now bd ct : Int) :
    (isLateCancellation now (combineDateTime bd ct) = true ↔
      (0 < hoursUntilClass now (combineDateTime bd ct) ∧
        hoursUntilClass now (combineDateTime bd ct) ≤ 24)) ∧
    (hoursUntilClass now (combineDateTime bd ct) ≤ 0 →
      isLateCancellation now (combineDateTime bd ct) = false) := by
  have hH : (0 : ℚ) < ((msPerHour : Int) : ℚ) := by norm_num [msPerHour]
  set t := combineDateTime bd ct with ht
  have hub : hoursUntilClass now t ≤ 24 ↔ t - now ≤ 24 * msPerHour := by
    unfold hoursUntilClass
    rw [div_le_iff₀ hH]
    constructor <;> intro h <;> exact_mod_cast h
  have hlb : 0 < hoursUntilClass now t ↔ 0 < t - now := by
    unfold hoursUntilClass
    rw [lt_div_iff₀ hH, zero_mul]
    constructor <;> intro h <;> exact_mod_cast h
  have hiff : isLateCancellation now t = true ↔
      (0 < hoursUntilClass now t ∧ hoursUntilClass now t ≤ 24) := by
    simp only [isLateCancellation, Bool.and_eq_true, decide_eq_true_eq]
    rw [hub, hlb]
    tauto
  refine ⟨hiff, ?_⟩
  intro h
  cases hb : isLateCancellation now t with
  | false => rfl
  | true =>
    rcases hiff.mp hb with ⟨h1, _⟩
    linarith

/-- Claim C4 witness: cancelling 7 hours before class start (class on day 1 at
07:00, cancellation at midnight of day 1) is classified late. -/
theorem late_classification_witness :
    isLateCancellation 86400000 (combineDateTime 1 420) = true :=
  (late_classification 86400000 1 420).1.mpr (by
    constructor
    · rw [show hoursUntilClass 86400000 (combineDateTime 1 420) = 7 by
        norm_num [hoursUntilClass, combineDateTime, msPerDay, msPerHour, msPerMinute]]
      norm_num
    · rw [show hoursUntilClass 86400000 (combineDateTime 1 420) = 7 by
        norm_num [hoursUntilClass, combineDateTime, msPerDay, msPerHour, msPerMinute]]
      norm_num)

/-- Concrete store for witnesses: one admin, members with balances 0, −4 and
−5, and one published class with capacity 20 starting at 07:00. -/
def wStore : Store :=
  ⟨[⟨1, Role.admin, 10⟩, ⟨2, Role.member, 0⟩, ⟨3, Role.member, -4⟩, ⟨4, Role.member, -5⟩],
   [⟨1, 420, 20, PubStatus.published, some 0, none⟩], []⟩

/-- A request sequence exercising every lifecycle operation. -/
def wOps : List Op :=
  [Op.create 0 2 1 1 100, Op.create 0 3 1 1 101, Op.create 0 4 1 1 102,
   Op.cancel 0 2 Role.member 100, Op.complete 1 1, Op.undoComplete 1 1]

/-- Claim C1 witness: running `wOps` from `wStore` (where the user at −4 books
and lands at −5, and the user at −5 is rejected) keeps user 3's balance at the
floor of −5 and not below. -/
theorem creditFloor_invariant_witness :
    -5 ≤ (⟨3, Role.member, -5⟩ : User).concessions :=
  (creditFloor_invariant wStore wOps (by decide) (by decide)).1
    ⟨3, Role.member, -5⟩ (by decide)

theorem confirmedCount_map_le (cid : Nat) (d : Int) (f : Booking → Booking)
    (hf : ∀ b, isConfirmedFor cid d (f b) = true → isConfirmedFor cid d b = true)
    (l : List Booking) :
    ((l.map f).filter (isConfirmedFor cid d)).length ≤
      (l.filter (isConfirmedFor cid d)).length := by
  rw [← List.countP_eq_length_filter, ← List.countP_eq_length_filter, List.countP_map]
  exact List.countP_mono_left (fun x _ hx => hf x hx)

theorem filter_append_singleton {α : Type} (p : α → Bool) (l : List α) (b : α) :
    ((l ++ [b]).filter p).length = (l.filter p).length + (if p b then 1 else 0) := by
  rw [List.filter_append]
  cases hb : p b <;> simp [hb]

/-- Store for the capacity counterexample: a capacity-one class and two members. -/
def capStore : Store :=
  ⟨[⟨2, Role.member, 5⟩, ⟨3, Role.member, 5⟩],
   [⟨1, 420, 1, PubStatus.published, some 0, none⟩], []⟩

/-- Book the one seat, complete the class, book the freed seat, undo completion. -/
def capOps : List Op :=
  [Op.create 0 2 1 1 11, Op.complete 1 1, Op.create 0 3 1 1 12, Op.undoComplete 1 1]

/-- Claim C2 counterexample: after booking the capacity-1 class, completing it,
booking the freed seat and undoing the completion, the confirmed count for the
(class, date) pair is 2 while `maxCapacity` is 1 — `undoCompleteClass`
performs no capacity check, so the stated invariant fails. -/
theorem capacity_invariant_cex :
    (findClass capStore 1).map GymClass.maxCapacity = some 1 ∧
    confirmedCount (runOps capStore capOps) 1 1 = 2 := by decide

/-- Claim C2 (amended): create fails whenever the confirmed count for the pair
already reached `maxCapacity` (with `classFull` once the earlier checks pass),
a successful create keeps the pair's confirmed count at or below capacity and
leaves every other pair's count unchanged, and cancel and completeClass never
increase any confirmed count; the undo-complete operation, however, restores
completed bookings without any capacity check (see the counterexample). -/
theorem capacity_gate (s : Store) (now : Int) (uid cid : Nat) (d : Int) (nid : Nat) :
    (∀ c, findClass s cid = some c → c.maxCapacity ≤ confirmedCount s cid d →
      ∀ r, createBooking s now uid cid d nid ≠ Except.ok r) ∧
    (∀ c u, findClass s cid = some c → findUser s uid = some u →
      isWithinBookingWindow now d = true →
      classNotAvailableCheck c (calendarDay now) = false →
      -5 < u.concessions →
      hasConfirmedBooking s uid cid d = false →
      c.maxCapacity ≤ confirmedCount s cid d →
      createBooking s now uid cid d nid = Except.error BookingError.classFull) ∧
    (∀ c s' b, createBooking s now uid cid d nid = Except.ok (s', b) →
      findClass s cid = some c → confirmedCount s' cid d ≤ c.maxCapacity) ∧
    (∀ s' b cid' d', createBooking s now uid cid d nid = Except.ok (s', b) →
      ¬(cid' = cid ∧ d' = d) → confirmedCount s' cid' d' = confirmedCount s cid' d') ∧
    (∀ rid role bid s' x y cid' d', cancelBooking s now rid role bid = Except.ok (s', x, y) →
      confirmedCount s' cid' d' ≤ confirmedCount s cid' d') ∧
    (∀ cid0 d0 cid' d',
      confirmedCount (completeClass s cid0 d0).1 cid' d' ≤ confirmedCount s cid' d') := by
  refine ⟨?_, ?_, ?_, ?_, ?_, ?_⟩
  · intro c hc hge r hok
    obtain ⟨s', b⟩ := r
    obtain ⟨hw, c', u, hc', hav, hu, hgt, hdup, hcap, hb, hs'⟩ := createBooking_ok_inv hok
    rw [hc] at hc'
    cases Option.some.inj hc'
    omega
  · intro c u hc hu hw hav hgt hdup hcap
    have hnc : ¬(u.concessions ≤ -5) := not_le.mpr hgt
    simp [createBooking, hw, hc, hav, hu, hdup, hnc, hcap]
  · intro c s' b hok hc
    obtain ⟨hw, c', u, hc', hav, hu, hgt, hdup, hcap, hb, hs'⟩ := createBooking_ok_inv hok
    rw [hc] at hc'
    cases Option.some.inj hc'
    subst hs'
    have hbconf : isConfirmedFor cid d b = true := by
      subst hb
      simp [isConfirmedFor, newBooking]
    have hcc : confirmedCount
        (adjustConcessions { s with bookings := s.bookings ++ [b] } uid (-1)) cid d =
        confirmedCount s cid d + 1 := by
      show ((s.bookings ++ [b]).filter (isConfirmedFor cid d)).length =
        (s.bookings.filter (isConfirmedFor cid d)).length + 1
      rw [filter_append_singleton, if_pos hbconf]
    rw [hcc]
    omega
  · intro s' b cid' d' hok hne
    obtain ⟨hw, c', u, hc', hav, hu, hgt, hdup, hcap, hb, hs'⟩ := createBooking_ok_inv hok
    subst hs'
    have hbnot : isConfirmedFor cid' d' b = false := by
      subst hb
      simp only [isConfirmedFor, newBooking]
      rcases not_and_or.mp hne with h | h
      · simp [Ne.symm h]
      · simp [Ne.symm h]
    show ((s.bookings ++ [b]).filter (isConfirmedFor cid' d')).length =
      (s.bookings.filter (isConfirmedFor cid' d')).length
    rw [filter_append_singleton, if_neg (by simp [hbnot])]
    omega
  · intro rid role bid s' x y cid' d' hok
    obtain ⟨b, c, hb, hc, hown, hst, hl, hr, hs'⟩ := cancelBooking_ok_inv hok
    subst hs'
    have hmono : ∀ late : Bool,
        confirmedCount (cancelUpdate now bid late s) cid' d' ≤ confirmedCount s cid' d' := by
      intro late
      apply confirmedCount_map_le
      intro b0 hb0
      by_cases hid : (b0.id == bid) = true
      · exfalso
        rw [if_pos hid] at hb0
        cases late <;> simp [isConfirmedFor] at hb0
      · rwa [if_neg hid] at hb0
    cases hry : y with
    | true =>
      show confirmedCount (adjustConcessions (cancelUpdate now bid x s) b.userId 1) cid' d' ≤
        confirmedCount s cid' d'
      exact hmono x
    | false =>
      show confirmedCount (cancelUpdate now bid x s) cid' d' ≤ confirmedCount s cid' d'
      exact hmono x
  · intro cid0 d0 cid' d'
    apply confirmedCount_map_le
    intro b0 hb0
    by_cases hm : isConfirmedFor cid0 d0 b0 = true
    · exfalso
      rw [if_pos hm] at hb0
      simp [isConfirmedFor] at hb0
    · rwa [if_neg hm] at hb0

/-- Store with the capacity-1 class already full. -/
def capFullStore : Store :=
  ⟨[⟨2, Role.member, 5⟩, ⟨3, Role.member, 5⟩],
   [⟨1, 420, 1, PubStatus.published, some 0, none⟩],
   [⟨11, 3, 1, 1, BStatus.confirmed, true, 0, none, false⟩]⟩

/-- Claim C2 witness: a create against the already-full capacity-1 class is
rejected with `classFull`. -/
theorem capacity_gate_witness :
    createBooking capFullStore 0 2 1 1 12 = Except.error BookingError.classFull :=
  (capacity_gate capFullStore 0 2 1 1 12).2.1
    ⟨1, 420, 1, PubStatus.published, some 0, none⟩ ⟨2, Role.member, 5⟩
    (by decide) (by decide) (by decide) (by decide) (by decide) (by decide) (by decide)

theorem cancelBooking_invalidTransition (s : Store) (now : Int) (rid : Nat) (role : Role)
    (bid : Nat) (b : Booking) (c : GymClass)
    (hb : findBooking s bid = some b) (hc : findClass s b.classId = some c)
    (hown : (role != Role.admin && b.userId != rid) = false)
    (hst : b.status ≠ BStatus.confirmed) :
    cancelBooking s now rid role bid = Except.error BookingError.invalidTransition := by
  have hst' : (b.status != BStatus.confirmed) = true := by simp [bne_iff_ne, hst]
  simp [cancelBooking, hb, hc, hown, hst']

theorem cancelBooking_ok_findBooking {s : Store} {now : Int} {rid : Nat} {role : Role}
    {bid : Nat} {s' : Store} {late ref : Bool} {b : Booking}
    (hok : cancelBooking s now rid role bid = Except.ok (s', late, ref))
    (hb : findBooking s bid = some b) :
    findBooking s' bid = some
      { b with
        status := if late then BStatus.lateCancelled else BStatus.cancelled,
        isLateCancellation := late, cancellationTime := some now } := by
  obtain ⟨b', c', hb', hc', hown, hst, hl, hr, hs'⟩ := cancelBooking_ok_inv hok
  rw [hb] at hb'
  cases Option.some.inj hb'
  have hbfind : s.bookings.find? (fun b0 => b0.id == bid) = some b := hb
  have hidb := List.find?_some hbfind
  have hcu : findBooking (cancelUpdate now bid late s) bid = some
      { b with
        status := if late then BStatus.lateCancelled else BStatus.cancelled,
        isLateCancellation := late, cancellationTime := some now } := by
    rw [findBooking_cancelUpdate, hb]
    dsimp only [Option.map]
    rw [if_pos hidb]
  subst hs'
  cases href : ref with
  | true =>
    show findBooking (adjustConcessions (cancelUpdate now bid late s) b.userId 1) bid = _
    exact hcu
  | false =>
    show findBooking (cancelUpdate now bid late s) bid = _
    exact hcu

theorem cancel_then_cancel (s : Store) (now now2 : Int) (rid : Nat) (role : Role) (bid : Nat)
    {s' : Store} {x y : Bool}
    (hok : cancelBooking s now rid role bid = Except.ok (s', x, y)) :
    cancelBooking s' now2 rid role bid = Except.error BookingError.invalidTransition := by
  obtain ⟨b, c, hb, hc, hown, hst, hl, hr, hs'⟩ := cancelBooking_ok_inv hok
  have hfb' := cancelBooking_ok_findBooking hok hb
  have hcls : s'.classes = s.classes := by
    subst hs'
    cases y <;> rfl
  apply cancelBooking_invalidTransition s' now2 rid role bid _ c hfb'
  · show findClass s' b.classId = some c
    unfold findClass
    rw [hcls]
    exact hc
  · rcases hown with h | h <;> simp [bne_iff_ne, h]
  · cases x <;> simp

/-- Claim C5: cancel fails with `bookingNotFound` when no booking has the id,
with `forbidden` when the requester is neither owner nor admin, and with
`invalidTransition` when the booking is not confirmed; consequently a second
cancel of the same booking by the same requester fails with
`invalidTransition` and, the request being rejected, changes nothing — the
refund is never applied twice. -/
theorem cancel_error_cases (s : Store) (now : Int) (rid : Nat) (role : Role) (bid : Nat) :
    ((∀ b ∈ s.bookings, b.id ≠ bid) →
      cancelBooking s now rid role bid = Except.error BookingError.bookingNotFound) ∧
    (∀ b c, findBooking s bid = some b → findClass s b.classId = some c →
      role ≠ Role.admin → b.userId ≠ rid →
      cancelBooking s now rid role bid = Except.error BookingError.forbidden) ∧
    (∀ b c, findBooking s bid = some b → findClass s b.classId = some c →
      (role = Role.admin ∨ b.userId = rid) → b.status ≠ BStatus.confirmed →
      cancelBooking s now rid role bid = Except.error BookingError.invalidTransition) ∧
    (∀ s' x y now2, cancelBooking s now rid role bid = Except.ok (s', x, y) →
      cancelBooking s' now2 rid role bid = Except.error BookingError.invalidTransition) ∧
    (∀ s' x y now2, cancelBooking s now rid role bid = Except.ok (s', x, y) →
      applyOp s' (Op.cancel now2 rid role bid) = s') := by
  refine ⟨?_, ?_, ?_, ?_, ?_⟩
  · intro hnone
    have hfb : findBooking s bid = none := by
      unfold findBooking
      rw [List.find?_eq_none]
      intro b hbmem
      simp [hnone b hbmem]
    simp [cancelBooking, hfb]
  · intro b c hb hc hadm huid
    have hcond : (role != Role.admin && b.userId != rid) = true := by
      simp [bne_iff_ne, hadm, huid]
    simp [cancelBooking, hb, hc, hcond]
  · intro b c hb hc hor hst
    apply cancelBooking_invalidTransition s now rid role bid b c hb hc _ hst
    rcases hor with h | h <;> simp [bne_iff_ne, h]
  · intro s' x y now2 hok
    exact cancel_then_cancel s now now2 rid role bid hok
  · intro s' x y now2 hok
    have herr := cancel_then_cancel s now now2 rid role bid hok
    simp [applyOp, herr]

/-- Store with one confirmed booking (id 100) owned by user 2. -/
def wCancelStore : Store :=
  ⟨[⟨2, Role.member, 4⟩], [⟨1, 420, 20, PubStatus.published, some 0, none⟩],
   [⟨100, 2, 1, 1, BStatus.confirmed, true, 0, none, false⟩]⟩

/-- The store after user 2 cancels booking 100 early at instant 0: refunded
balance 5, booking cancelled. -/
def wCancelStoreAfter : Store :=
  ⟨[⟨2, Role.member, 5⟩], [⟨1, 420, 20, PubStatus.published, some 0, none⟩],
   [⟨100, 2, 1, 1, BStatus.cancelled, true, 0, some 0, false⟩]⟩

/-- Claim C5 witness: the second cancel of booking 100 fails with
`invalidTransition`, so the refund is applied at most once. -/
theorem cancel_error_cases_witness :
    cancelBooking wCancelStoreAfter 0 2 Role.member 100 =
      Except.error BookingError.invalidTransition :=
  (cancel_error_cases wCancelStore 0 2 Role.member 100).2.2.2.1
    wCancelStoreAfter false true 0 (by rfl)

/-- Claim C6: a successful cancel classifies lateness from the booking date and
class start time; the booking becomes late-cancelled (flag set, balances
untouched) on a late cancel and cancelled (flag cleared) on an early one, with
the owner credited exactly one concession iff the booking's original
`usedConcession` flag is true; and no lifecycle operation ever changes the
`usedConcession` flag (or the id) of an existing booking. -/
theorem cancel_effects (s : Store) (now : Int) (rid : Nat) (role : Role) (bid : Nat)
    (s' : Store) (late ref : Bool) (b : Booking) (c : GymClass)
    (hok : cancelBooking s now rid role bid = Except.ok (s', late, ref))
    (hb : findBooking s bid = some b)
    (hc : findClass s b.classId = some c) :
    late = isLateCancellation now (combineDateTime b.bookingDate c.time) ∧
    findBooking s' bid = some
      { b with
        status := if late then BStatus.lateCancelled else BStatus.cancelled,
        isLateCancellation := late, cancellationTime := some now } ∧
    (late = true → ref = false ∧ s'.users = s.users) ∧
    (late = false → b.usedConcession = true → ref = true ∧
      findUser s' b.userId = (findUser s b.userId).map
        (fun u => { u with concessions := u.concessions + 1 })) ∧
    (late = false → b.usedConcession = false → ref = false ∧ s'.users = s.users) ∧
    (∀ s0 op i, i < s0.bookings.length →
      ((applyOp s0 op).bookings[i]?).map (fun b0 => (b0.id, b0.usedConcession)) =
        (s0.bookings[i]?).map (fun b0 => (b0.id, b0.usedConcession))) := by
  obtain ⟨b', c', hb', hc', hown, hst, hl, hr, hs'⟩ := cancelBooking_ok_inv hok
  rw [hb] at hb'
  cases Option.some.inj hb'
  rw [hc] at hc'
  cases Option.some.inj hc'
  refine ⟨hl, cancelBooking_ok_findBooking hok hb, ?_, ?_, ?_, ?_⟩
  · intro hlate
    subst hlate
    constructor
    · rw [hr]
      simp
    · subst hs'
      rw [hr]
      simp [cancelUpdate_users]
  · intro hlate hused
    subst hlate
    have href : ref = true := by rw [hr, hused]; rfl
    refine ⟨href, ?_⟩
    subst hs'
    rw [href, if_pos rfl, findUser_adjustConcessions]
    have hcuu : findUser (cancelUpdate now bid false s) b.userId = findUser s b.userId := rfl
    rw [hcuu]
    cases hfu : findUser s b.userId with
    | none => rfl
    | some u =>
      have hufind : s.users.find? (fun u1 => u1.id == b.userId) = some u := hfu
      have hukey := List.find?_some hufind
      dsimp only [Option.map]
      rw [if_pos hukey]
  · intro hlate hused
    subst hlate
    have href : ref = false := by rw [hr, hused]; rfl
    refine ⟨href, ?_⟩
    subst hs'
    rw [href]
    simp [cancelUpdate_users]
  · intro s0 op i hi
    cases op with
    | create now3 uid3 cid3 d3 nid3 =>
      dsimp only [applyOp]
      cases hcr : createBooking s0 now3 uid3 cid3 d3 nid3 with
      | error e => rfl
      | ok r =>
        obtain ⟨s1, b1⟩ := r
        obtain ⟨hw1, c1, u1, hc1, hav1, hu1, hgt1, hdup1, hcap1, hb1, hs1⟩ :=
          createBooking_ok_inv hcr
        subst hs1
        show (((s0.bookings ++ [b1])[i]?).map (fun b0 => (b0.id, b0.usedConcession))) =
          ((s0.bookings[i]?).map (fun b0 => (b0.id, b0.usedConcession)))
        rw [List.getElem?_append_left hi]
    | cancel now3 rid3 role3 bid3 =>
      dsimp only [applyOp]
      cases hcn : cancelBooking s0 now3 rid3 role3 bid3 with
      | error e => rfl
      | ok r =>
        obtain ⟨s1, late1, ref1⟩ := r
        obtain ⟨b1, c1, hb1, hc1, hown1, hst1, hl1, hr1, hs1⟩ := cancelBooking_ok_inv hcn
        subst hs1
        have hmap :
            (((s0.bookings.map (fun b0 => if b0.id == bid3 then
              { b0 with
                status := if late1 then BStatus.lateCancelled else BStatus.cancelled,
                isLateCancellation := late1, cancellationTime := some now3 }
              else b0))[i]?).map (fun b0 => (b0.id, b0.usedConcession))) =
            ((s0.bookings[i]?).map (fun b0 => (b0.id, b0.usedConcession))) := by
          rw [List.getElem?_map]
          cases hgi : s0.bookings[i]? with
          | none => rfl
          | some b0 =>
            dsimp only [Option.map]
            by_cases hid : (b0.id == bid3) = true <;> simp [hid]
        cases ref1 with
        | true => exact hmap
        | false => exact hmap
    | complete cid3 d3 =>
      dsimp only [applyOp, completeClass]
      rw [List.getElem?_map]
      cases hgi : s0.bookings[i]? with
      | none => rfl
      | some b0 =>
        dsimp only [Option.map]
        by_cases hm : isConfirmedFor cid3 d3 b0 = true <;> simp [hm]
    | undoComplete cid3 d3 =>
      dsimp only [applyOp, undoCompleteClass]
      rw [List.getElem?_map]
      cases hgi : s0.bookings[i]? with
      | none => rfl
      | some b0 =>
        dsimp only [Option.map]
        by_cases hm : isCompletedFor cid3 d3 b0 = true <;> simp [hm]

/-- Claim C6 witness: the early cancel of booking 100 set status `cancelled`
with the flag cleared and the timestamp recorded, leaving `usedConcession`
untouched. -/
theorem cancel_effects_witness :
    findBooking wCancelStoreAfter 100 =
      some ⟨100, 2, 1, 1, BStatus.cancelled, true, 0, some 0, false⟩ :=
  (cancel_effects wCancelStore 0 2 Role.member 100 wCancelStoreAfter false true
    ⟨100, 2, 1, 1, BStatus.confirmed, true, 0, none, false⟩
    ⟨1, 420, 20, PubStatus.published, some 0, none⟩
    (by rfl) (by rfl) (by rfl)).2.1

/-- Store whose published class ended on day 5. -/
def endedStore : Store :=
  ⟨[⟨2, Role.member, 5⟩], [⟨1, 420, 20, PubStatus.published, some 0, some 5⟩], []⟩

/-- Claim C7 counterexample: the class has end date day 5 and the requested
date day 10 is not before it, yet create succeeds, and the mock availability
helper also reports the class available — the end date is never consulted on
the booking-create path. -/
theorem endDate_not_checked_cex :
    (findClass endedStore 1).map GymClass.endDate = some (some 5) ∧
    ¬((10 : Int) < 5) ∧
    (createBooking endedStore (10 * msPerDay) 2 1 10 50).isOk = true ∧
    isClassAvailableForBooking ⟨1, 420, 20, PubStatus.published, some 0, some 5⟩
      (calendarDay (10 * msPerDay)) = true := by decide

/-- Claim C7 (amended): on the server create path a class is treated as
bookable iff it is published, or scheduled with no publish date, or scheduled
with a publish date at or before the current calendar date; the mock helper
agrees except that a scheduled class lacking a publish date is unavailable;
draft classes are never bookable; the end date is not consulted by either
check; a non-bookable class makes create fail with `classNotAvailable` once
the class is found and the window check passed. -/
theorem class_availability (c : GymClass) (today : Int) :
    (classNotAvailableCheck c today = false ↔
      (c.status = PubStatus.published ∨
        (c.status = PubStatus.scheduled ∧
          (c.publishDate = none ∨ ∃ p, c.publishDate = some p ∧ p ≤ today)))) ∧
    (c.status = PubStatus.draft → classNotAvailableCheck c today = true) ∧
    (∀ e, classNotAvailableCheck { c with endDate := e } today =
      classNotAvailableCheck c today) ∧
    (isClassAvailableForBooking c today = true ↔
      (c.status = PubStatus.published ∨
        (c.status = PubStatus.scheduled ∧ ∃ p, c.publishDate = some p ∧ p ≤ today))) ∧
    (∀ e, isClassAvailableForBooking { c with endDate := e } today =
      isClassAvailableForBooking c today) ∧
    (∀ s now uid cid d nid, findClass s cid = some c →
      isWithinBookingWindow now d = true →
      classNotAvailableCheck c (calendarDay now) = true →
      createBooking s now uid cid d nid = Except.error BookingError.classNotAvailable) := by
  refine ⟨?_, ?_, ?_, ?_, ?_, ?_⟩
  · cases hst : c.status <;> cases hpd : c.publishDate <;>
      simp [classNotAvailableCheck, hst, hpd, not_lt]
  · intro hst
    simp [classNotAvailableCheck, hst]
  · intro e
    rfl
  · cases hst : c.status <;> cases hpd : c.publishDate <;>
      simp [isClassAvailableForBooking, hst, hpd]
  · intro e
    rfl
  · intro s now uid cid d nid hfc hw hna
    simp [createBooking, hfc, hw, hna]

/-- Store with a draft class. -/
def draftStore : Store :=
  ⟨[⟨2, Role.member, 5⟩], [⟨1, 420, 20, PubStatus.draft, none, none⟩], []⟩

/-- Claim C7 witness: a create against a draft class fails with
`classNotAvailable`. -/
theorem class_availability_witness :
    createBooking draftStore 0 2 1 1 77 = Except.error BookingError.classNotAvailable :=
  (class_availability ⟨1, 420, 20, PubStatus.draft, none, none⟩
    (calendarDay 0)).2.2.2.2.2 draftStore 0 2 1 1 77 (by rfl) (by rfl) (by rfl)

/-- Store with one confirmed and one cancelled booking for (class 1, day 1). -/
def mixedStore : Store :=
  ⟨[⟨2, Role.member, 5⟩, ⟨3, Role.member, 5⟩],
   [⟨1, 420, 20, PubStatus.published, some 0, none⟩],
   [⟨21, 2, 1, 1, BStatus.confirmed, true, 0, none, false⟩,
    ⟨22, 3, 1, 1, BStatus.cancelled, true, 0, some 0, false⟩]⟩

/-- Claim C8 counterexample: completeClass transitions exactly one booking
(the confirmed one) and the server reports 1, but the mock reports 2 — the
count of all bookings for the pair regardless of status — so the returned
count is not the number of bookings transitioned. -/
theorem completeClass_count_cex :
    confirmedCount mixedStore 1 1 = 1 ∧
    (completeClass mixedStore 1 1).2 = 1 ∧
    (mockCompleteClass mixedStore 1 1).2 = 2 := by decide

/-- Claim C8 (amended): the server completeClass transitions exactly the
confirmed bookings of the pair to completed, touches no balance, and returns
the number transitioned (zero being a success, not an error);
undoCompleteClass transitions the completed bookings of the pair back to
confirmed and returns the number transitioned, restoring every booking that
was confirmed before the complete; the mock applies the same store transition
but returns the number of bookings for the pair in any status. -/
theorem completeClass_behavior (s : Store) (cid : Nat) (d : Int) :
    ((completeClass s cid d).2 = confirmedCount s cid d) ∧
    ((completeClass s cid d).1.users = s.users) ∧
    ((undoCompleteClass s cid d).1.users = s.users) ∧
    ((undoCompleteClass s cid d).2 = (s.bookings.filter (isCompletedFor cid d)).length) ∧
    (∀ i : Nat, ((completeClass s cid d).1.bookings[i]?) = (s.bookings[i]?).map
      (fun b => if isConfirmedFor cid d b then { b with status := BStatus.completed } else b)) ∧
    (∀ (i : Nat) (b : Booking), s.bookings[i]? = some b → b.status = BStatus.confirmed →
      ((undoCompleteClass (completeClass s cid d).1 cid d).1.bookings[i]?) = some b) ∧
    ((mockCompleteClass s cid d).1 = (completeClass s cid d).1) ∧
    ((mockCompleteClass s cid d).2 =
      (s.bookings.filter (fun b => b.classId == cid && b.bookingDate == d)).length) := by
  refine ⟨rfl, rfl, rfl, rfl, ?_, ?_, rfl, ?_⟩
  · intro i
    show (s.bookings.map (fun b =>
      if isConfirmedFor cid d b then { b with status := BStatus.completed } else b))[i]? = _
    exact List.getElem?_map _ _ _
  · intro i b hgi hst
    show ((s.bookings.map (fun b0 =>
        if isConfirmedFor cid d b0 then { b0 with status := BStatus.completed } else b0)).map
      (fun b0 =>
        if isCompletedFor cid d b0 then { b0 with status := BStatus.confirmed } else b0))[i]? =
      some b
    rw [List.getElem?_map, List.getElem?_map, hgi]
    dsimp only [Option.map]
    by_cases hm : isConfirmedFor cid d b = true
    · rw [if_pos hm]
      have hm2 : isCompletedFor cid d { b with status := BStatus.completed } = true := by
        simp only [isConfirmedFor, Bool.and_eq_true] at hm
        simp [isCompletedFor, hm.1.1, hm.1.2]
      rw [if_pos hm2]
      obtain ⟨bid0, buid, bcid, bd0, bst, bu, bt, bct, bil⟩ := b
      dsimp only at hst
      subst hst
      rfl
    · rw [if_neg hm]
      have hm2 : isCompletedFor cid d b = false := by
        simp [isCompletedFor, hst]
      rw [if_neg (by simp [hm2])]
  · show ((s.bookings.map (fun b0 =>
        if isConfirmedFor cid d b0 then { b0 with status := BStatus.completed } else b0)).filter
      (fun b => b.classId == cid && b.bookingDate == d)).length =
      (s.bookings.filter (fun b => b.classId == cid && b.bookingDate == d)).length
    rw [← List.countP_eq_length_filter, ← List.countP_eq_length_filter, List.countP_map]
    apply List.countP_congr
    intro b0 hb0
    by_cases hm : isConfirmedFor cid d b0 = true <;> simp [hm]

/-- Claim C8 witness: completing then undoing (class 1, day 1) restores the
confirmed booking 21 at its original position with all fields intact. -/
theorem completeClass_behavior_witness :
    ((undoCompleteClass (completeClass mixedStore 1 1).1 1 1).1.bookings[0]?) =
      some ⟨21, 2, 1, 1, BStatus.confirmed, true, 0, none, false⟩ :=
  (completeClass_behavior mixedStore 1 1).2.2.2.2.2.1 0
    ⟨21, 2, 1, 1, BStatus.confirmed, true, 0, none, false⟩ (by rfl) (by rfl)

/-- Claim C10: the admin update-concessions operation reads the current
balance, adds the signed delta and writes the sum back unconditionally — no
lower-bound check — in both the server route and the mock; only a missing
user is an error. -/
theorem updateConcessions_unchecked (s : Store) (uid : Nat) (delta : Int) :
    (∀ u, findUser s uid = some u →
      updateConcessionsRoute s uid delta = Except.ok
        ({ s with users := s.users.map (fun u0 =>
            if u0.id == uid then { u0 with concessions := u.concessions + delta } else u0) },
          u.concessions + delta)) ∧
    (∀ u, findUser s uid = some u →
      mockUpdateConcessions s uid delta = Except.ok
        (updateUserConcessions s uid (u.concessions + delta), u.concessions + delta)) ∧
    (findUser s uid = none →
      updateConcessionsRoute s uid delta = Except.error BookingError.unauthorized) := by
  refine ⟨?_, ?_, ?_⟩
  · intro u hu
    simp [updateConcessionsRoute, hu]
  · intro u hu
    simp [mockUpdateConcessions, hu]
  · intro hu
    simp [updateConcessionsRoute, hu]

/-- Single-user store sitting exactly at the credit floor. -/
def floorStore : Store := ⟨[⟨4, Role.member, -5⟩], [], []⟩

/-- Claim C10 witness: applying delta −1 to the user at −5 writes −6, strictly
below the credit floor that the booking-create path enforces. -/
theorem updateConcessions_unchecked_witness :
    updateConcessionsRoute floorStore 4 (-1) =
      Except.ok (⟨[⟨4, Role.member, -6⟩], [], []⟩, -6) ∧ (-6 : Int) < -5 := by
  constructor
  · have h := (updateConcessions_unchecked floorStore 4 (-1)).1 ⟨4, Role.member, -5⟩ (by rfl)
    exact h.trans (by rfl)
  · decide

theorem mockAvailable_of_serverAvailable (c : GymClass) (today : Int)
    (hpd : c.status = PubStatus.scheduled → c.publishDate ≠ none)
    (hav : classNotAvailableCheck c today = false) :
    isClassAvailableForBooking c today = true := by
  cases hst : c.status with
  | draft => simp [classNotAvailableCheck, hst] at hav
  | published => simp [isClassAvailableForBooking, hst]
  | scheduled =>
    cases hpdq : c.publishDate with
    | none => exact absurd hpdq (hpd hst)
    | some p =>
      simp only [classNotAvailableCheck, hst, hpdq] at hav
      simp only [isClassAvailableForBooking, hst, hpdq]
      simp at hav ⊢
      omega

theorem adjust_eq_updateFirst (s : Store) (uid : Nat) (d : Int) (u : User)
    (hnd : (s.users.map User.id).Nodup)
    (hu : findUser s uid = some u) :
    adjustConcessions s uid d = updateUserConcessions s uid (u.concessions + d) := by
  have hu2 : s.users.find? (fun u1 => u1.id == uid) = some u := hu
  have hcnt : s.users.countP (fun u1 => u1.id == uid) ≤ 1 :=
    countP_key_le_one User.id uid s.users hnd
  unfold adjustConcessions updateUserConcessions
  congr 1
  rw [map_ite_eq_setFirst _ _ _ hcnt]
  exact setFirst_congr _ _ _ _ u hu2 rfl

theorem find_and_of_find {α : Type} (p q : α → Bool) (l : List α) (a : α)
    (h : l.find? p = some a) (hq : q a = true) :
    l.find? (fun x => p x && q x) = some a := by
  induction l with
  | nil => simp [List.find?] at h
  | cons x xs ih =>
    rw [List.find?_cons] at h
    rw [List.find?_cons]
    cases hx : p x with
    | true =>
      rw [hx] at h
      obtain rfl := Option.some.inj h
      simp [hx, hq]
    | false =>
      rw [hx] at h
      simp only [hx, Bool.false_and]
      exact ih h

theorem setFirst_and_congr {α : Type} (p q : α → Bool) (g : α → α) (l : List α) (a : α)
    (h : l.find? p = some a) (hq : q a = true) :
    setFirst (fun x => p x && q x) g l = setFirst p g l := by
  induction l with
  | nil => rfl
  | cons x xs ih =>
    rw [List.find?_cons] at h
    cases hx : p x with
    | true =>
      rw [hx] at h
      obtain rfl := Option.some.inj h
      simp [setFirst, hx, hq]
    | false =>
      rw [hx] at h
      simp only [setFirst, hx, Bool.false_and, if_neg Bool.false_ne_true]
      rw [ih h]

theorem cancelUpdate_eq_mockUpdate (s : Store) (now : Int) (bid rid : Nat) (late : Bool)
    (b : Booking)
    (hbd : (s.bookings.map Booking.id).Nodup)
    (hb : findBooking s bid = some b)
    (howner : b.userId = rid) :
    (cancelUpdate now bid late s).bookings =
      setFirst (fun b0 => b0.id == bid && b0.userId == rid)
        (fun b0 => { b0 with
          status := if late then BStatus.lateCancelled else BStatus.cancelled,
          isLateCancellation := late, cancellationTime := some now }) s.bookings := by
  have hb2 : s.bookings.find? (fun b0 => b0.id == bid) = some b := hb
  have hcnt : s.bookings.countP (fun b0 => b0.id == bid) ≤ 1 :=
    countP_key_le_one Booking.id bid s.bookings hbd
  show s.bookings.map (fun b0 =>
      if b0.id == bid then
        { b0 with
          status := if late then BStatus.lateCancelled else BStatus.cancelled,
          isLateCancellation := late, cancellationTime := some now }
      else b0) = _
  rw [map_ite_eq_setFirst _ _ _ hcnt]
  symm
  exact setFirst_and_congr _ (fun b0 => b0.userId == rid) _ _ b hb2 (by simp [howner])

/-- Claim C9 (amended): whenever the server accepts, the mock accepts with the
same state change — a create accepted by the server (for a class that is not
scheduled-without-publish-date, where the two availability checks differ) is
accepted by the mock with the identical resulting store and booking, and a
cancel by the booking's owner accepted by the server is accepted by the mock
with the same flags and identical resulting store.  The converse fails: the
mock omits the booking-window and capacity checks on create and the
confirmed-status and admin-override checks on cancel (see the
counterexample). -/
theorem mock_simulates_server (s : Store) (now : Int)
    (hud : (s.users.map User.id).Nodup)
    (hbd : (s.bookings.map Booking.id).Nodup) :
    (∀ uid cid d nid s' b c, findClass s cid = some c →
      (c.status = PubStatus.scheduled → c.publishDate ≠ none) →
      createBooking s now uid cid d nid = Except.ok (s', b) →
      mockCreate s now uid cid d nid = Except.ok (s', b)) ∧
    (∀ rid bid s' late ref, (findUser s rid).isSome = true →
      cancelBooking s now rid Role.member bid = Except.ok (s', late, ref) →
      mockCancel s now rid bid = Except.ok (s', late, ref)) := by
  constructor
  · intro uid cid d nid s' b c hc hpd hok
    obtain ⟨hw, c', u, hc', hav, hu, hgt, hdup, hcap, hb, hs'⟩ := createBooking_ok_inv hok
    rw [hc] at hc'
    cases Option.some.inj hc'
    have hnc : ¬(u.concessions ≤ -5) := not_le.mpr hgt
    have hmav := mockAvailable_of_serverAvailable c (calendarDay now) hpd hav
    subst hb
    subst hs'
    have hadj : adjustConcessions
        { s with bookings := s.bookings ++ [newBooking now uid cid d nid] } uid (-1) =
        updateUserConcessions
          { s with bookings := s.bookings ++ [newBooking now uid cid d nid] } uid
          (u.concessions + (-1)) :=
      adjust_eq_updateFirst _ uid (-1) u hud hu
    have harith : u.concessions + (-1) = u.concessions - 1 := by ring
    rw [harith] at hadj
    simp only [mockCreate, hu, hnc, if_neg hnc, hc, hmav, hdup]
    rw [hadj]
    simp
  · intro rid bid s' late ref hfu hok
    obtain ⟨b, c, hb, hc, hown, hst, hl, hr, hs'⟩ := cancelBooking_ok_inv hok
    have howner : b.userId = rid := by
      rcases hown with h | h
      · cases h
      · exact h
    obtain ⟨u, hu⟩ := Option.isSome_iff_exists.mp hfu
    have hb2 : s.bookings.find? (fun b0 => b0.id == bid) = some b := hb
    have hfind := find_and_of_find (fun b0 => b0.id == bid) (fun b0 => b0.userId == rid)
      s.bookings b hb2 (by simp [howner])
    have hbooks := cancelUpdate_eq_mockUpdate s now bid rid late b hbd hb howner
    subst hs'
    simp only [mockCancel, hu, hfind, hc]
    rw [← hl, ← hr, ← hbooks]
    have hstores : ({ s with bookings := (cancelUpdate now bid late s).bookings } : Store) =
        cancelUpdate now bid late s := rfl
    rw [hstores]
    cases href : ref with
    | true =>
      rw [if_pos rfl, if_pos rfl]
      have hadj : adjustConcessions (cancelUpdate now bid late s) b.userId 1 =
          updateUserConcessions (cancelUpdate now bid late s) b.userId (u.concessions + 1) :=
        adjust_eq_updateFirst _ b.userId 1 u hud (by rw [howner]; exact hu)
      rw [hadj, howner]
    | false =>
      rw [if_neg (by simp), if_neg (by simp)]

/-- Claim C9 counterexample: against a full capacity-1 class the server
rejects with `classFull` while the mock, which has no capacity check, accepts
the booking — the two implementations do not accept the same requests. -/
theorem mock_server_divergence_cex :
    createBooking capFullStore 0 2 1 1 12 = Except.error BookingError.classFull ∧
    (mockCreate capFullStore 0 2 1 1 12).isOk = true :=
  ⟨rfl, by decide⟩

/-- One-user, one-class store for the simulation witness. -/
def simStore : Store :=
  ⟨[⟨2, Role.member, 1⟩], [⟨1, 420, 9, PubStatus.published, some 0, none⟩], []⟩

/-- The booking the server creates for the simulation witness. -/
def simBooking : Booking := ⟨100, 2, 1, 1, BStatus.confirmed, true, 0, none, false⟩

/-- The store both implementations reach after the create. -/
def simStoreAfter : Store :=
  ⟨[⟨2, Role.member, 0⟩], [⟨1, 420, 9, PubStatus.published, some 0, none⟩], [simBooking]⟩

/-- Claim C9 witness: the mock accepts the create the server accepted and
produces the identical store and booking. -/
theorem mock_simulates_server_witness :
    mockCreate simStore 0 2 1 1 100 = Except.ok (simStoreAfter, simBooking) :=
  (mock_simulates_server simStore 0 (by decide) (by decide)).1 2 1 1 100
    simStoreAfter simBooking ⟨1, 420, 9, PubStatus.published, some 0, none⟩
    (by rfl) (fun h => nomatch h) (by rfl)

end Flexbook
